import Mathlib

/-
  Verification of the gaze playback viewer (sample_viewer/js/view_gaze.js).

  The JavaScript source is shallowly embedded below.  Mutable fields of the
  `my` object become fields of `GazeState`; the immutable `view_data` object
  becomes `ViewData`; wall-clock time (`new Date()`) is passed explicitly as
  an integer millisecond timestamp; `window.setTimeout` scheduling is modelled
  by `runIters` (the scheduled callback fires at the given times while the
  chain is alive) and, where the number of in-flight timeouts matters, by the
  `Env` wrapper that counts pending timeouts.  JavaScript numbers holding
  sample indices and timestamps are modelled as ℤ, the playback speed
  (`parseFloat` of the speed control) as ℚ.  A JavaScript runtime TypeError
  (property access on `undefined`) is modelled by `JsError.typeError`.
-/

namespace GazeHound

/-- A gaze point: the JS arrays hold pairs `[x, y]`; a missing / null entry
    ("absent" sample) is `none`. -/
abbrev Pt := ℚ × ℚ

/-- One viewer's data for a stimulus: a list of viewing arrays
    (`my.stim_data[viewer_name]` is an array of arrays of points). -/
abbrev ViewArrays := List (List (Option Pt))

/-- Embeds `my.view_data.viewdata[stim_name]`: viewer name → that viewer's viewing
    arrays, as an association list (JS object iteration order). -/
abbrev StimData := List (String × ViewArrays)

/-- A viewer record (`view_data.viewers[i]`): only its group is used. -/
structure Viewer where
  group : String
deriving Repr, DecidableEq

/-- A resolved group style (`my.group_styles[g]`). -/
structure StyleData where
  fill_style : String
  stroke_style : String
deriving Repr, DecidableEq

/-- A disc handed to `renderer.circle` by `draw_current_points`. -/
structure Disc where
  cx : ℚ
  cy : ℚ
  r : ℚ
  fill : String
  stroke : String
deriving Repr, DecidableEq

/-- A JavaScript runtime error (property access on `undefined`). -/
inductive JsError where
  | typeError
deriving Repr, DecidableEq

/-- The immutable parts of `spec.view_data`. -/
structure ViewData where
  stims : List String
  viewdata : List (String × StimData)
  viewer_directory : List (String × ℕ)
  viewers : List Viewer
  samples_per_second : ℚ
deriving Repr

/-- JS object property lookup on an association list: `obj[k]`, `none` for
    `undefined`. -/
def jsLookup (l : List (String × α)) (k : String) : Option α :=
  (l.find? (fun p => p.1 == k)).map (fun p => p.2)

/-- JS array indexing `arr[i]` on an array of optional points: out-of-range
    or negative indices give `undefined`, i.e. `none`; an in-range `null`
    entry is also `none` (falsy either way). -/
def jsGet (arr : List (Option Pt)) (i : ℤ) : Option Pt :=
  if i < 0 then none else (arr.getD i.toNat none)

/-- The mutable fields of `my` used by the playback core. -/
structure GazeState where
  point_index : ℤ
  point_index_offset : ℤ
  playing : Bool
  playback_speed : ℚ
  play_started_at : ℤ
  rendered_count : ℕ
  gaze_len : ℕ
  stim_index : ℤ
  stim_name : Option String
  stim_data : Option StimData
deriving Repr

/-- Embeds `gaze_len()` (view_gaze.js lines 65–76): the running maximum, over every
    viewer of the current stimulus and every one of its viewing arrays, of the
    array length, starting from 0; `my.stim_data` being `undefined` iterates
    nothing. -/
def gaze_len (sd : Option StimData) : ℕ :=
  match sd with
  | none => 0
  | some d =>
      d.foldl
        (fun mx p =>
          p.2.foldl (fun m a => if m < a.length then a.length else m) mx) 0

/-- Embeds the `elapsed_ms` of a loop iteration (line 80): `new Date() - my.play_started_at`. -/
def elapsed_ms (t : ℤ) (s : GazeState) : ℤ :=
  t - s.play_started_at

/-- The next-index computation of `render_and_schedule` (lines 82–85):
    `my.point_index_offset + Math.floor(elapsed_ms * my.playback_speed *
    samples_per_second / 1000)`. -/
def next_index (sps : ℚ) (t : ℤ) (s : GazeState) : ℤ :=
  s.point_index_offset +
    ⌊((elapsed_ms t s : ℚ) * s.playback_speed * sps) / 1000⌋

/-- One iteration of `render_and_schedule` (lines 79–100) at wall-clock time
    `t`.  Returns the new state together with the sample index the iteration
    draws (`draw_current_frame()` runs at the still-unadvanced
    `my.point_index`; the assignment `my.point_index = next_index` happens
    last).  In the clamp branch `my.playing` is set to `false`, so the
    `else` branch of `if (my.playing)` runs and stores
    `my.point_index_offset = my.point_index`; rescheduling (`setTimeout`)
    happens exactly when `my.playing` is still true and is modelled by the
    callers (`runIters`, `Env.fire`). -/
def render_and_schedule (sps : ℚ) (t : ℤ) (s : GazeState) : GazeState × ℤ :=
  if (s.gaze_len : ℤ) ≤ next_index sps t s then
    ({ s with rendered_count := s.rendered_count + 1,
              playing := false,
              point_index_offset := s.point_index,
              point_index := (s.gaze_len : ℤ) - 1 },
     s.point_index)
  else
    ({ s with rendered_count := s.rendered_count + 1,
              point_index_offset :=
                if s.playing then s.point_index_offset else s.point_index,
              point_index := next_index sps t s },
     s.point_index)

/-- Embeds `play(from_start)` (lines 29–39): records the epoch and resets the
    rendered count, resets both indices when starting from the beginning or
    already at (or past) the last sample, sets `my.playing = true` and then
    synchronously runs the first `render_and_schedule()` iteration (at the
    same wall-clock time `t`).  Returns the new state and the index drawn by
    that first iteration. -/
def play (sps : ℚ) (from_start : Bool) (t : ℤ) (s : GazeState) :
    GazeState × ℤ :=
  if from_start = true ∨ (s.gaze_len : ℤ) - 1 ≤ s.point_index then
    render_and_schedule sps t
      { s with play_started_at := t, rendered_count := 0,
               point_index := 0, point_index_offset := 0, playing := true }
  else
    render_and_schedule sps t
      { s with play_started_at := t, rendered_count := 0, playing := true }

/-- Embeds `pause()` (lines 41–42): the body of the published pause function is
    empty. -/
def pause (s : GazeState) : GazeState :=
  s

/-- Embeds `handle_speed_change` (lines 211–214): unconditionally stores the parsed
    value of the speed control into `my.playback_speed`. -/
def handle_speed_change (v : ℚ) (s : GazeState) : GazeState :=
  { s with playback_speed := v }

/-- Embeds `handle_play_pause_click` (lines 203–209): toggles `my.playing` and, when
    the toggle lands on playing, calls `play()` (with no argument, i.e.
    `from_start` falsy).  Returns the new state and the index drawn by the
    `play` call, if one happened. -/
def handle_play_pause_click (sps : ℚ) (t : ℤ) (s : GazeState) :
    GazeState × Option ℤ :=
  if (!s.playing) = true then
    ((play sps false t { s with playing := !s.playing }).1,
     some (play sps false t { s with playing := !s.playing }).2)
  else
    ({ s with playing := !s.playing }, none)

/-- Placeholder for a JS string that is never actually read. -/
def noName : String := ""

/-- Embeds `set_stim_index(idx)` (lines 50–61).  `my.stim_index = idx` happens
    first; then `select_nav_element(my.nav_array[idx])` calls a DOM method on
    `my.nav_array[idx]`, and `build_nav()` made `nav_array` hold exactly one
    element per entry of `view_data.stims`, so an index outside
    `[0, stims.length)` reads `undefined` and the method call throws a
    TypeError, leaving every other field untouched.  In range, the stimulus
    name, its data, both indices and the cached `gaze_len` are set. -/
def set_stim_index (vd : ViewData) (idx : ℤ) (s : GazeState) :
    GazeState × Option JsError :=
  if 0 ≤ idx ∧ idx < (vd.stims.length : ℤ) then
    ({ s with stim_index := idx,
              stim_name := some (vd.stims.getD idx.toNat noName),
              stim_data := jsLookup vd.viewdata (vd.stims.getD idx.toNat noName),
              point_index := 0,
              point_index_offset := 0,
              gaze_len := gaze_len (jsLookup vd.viewdata
                (vd.stims.getD idx.toNat noName)) },
     none)
  else
    ({ s with stim_index := idx }, some JsError.typeError)

/-- The loop body of `overdraw_all_frames` (lines 102–109) over a list of
    indices: each one is stored into `my.point_index` and then drawn.
    Returns the final state and the list of indices drawn, in order. -/
def overdraw_loop : GazeState → List ℕ → GazeState × List ℤ
  | s, [] => (s, [])
  | s, i :: is =>
      ((overdraw_loop { s with point_index := (i : ℤ) } is).1,
       (i : ℤ) :: (overdraw_loop { s with point_index := (i : ℤ) } is).2)

/-- Embeds `overdraw_all_frames()` (lines 102–109): clears and draws every sample
    index from `0` to `my.gaze_len - 1`, setting `my.point_index` to each. -/
def overdraw_all_frames (s : GazeState) : GazeState × List ℤ :=
  overdraw_loop s (List.range s.gaze_len)

/-- The inner loop of `draw_current_points` (lines 138–146) over one
    viewer's viewing arrays, with that viewer's resolved style (which is
    `undefined`, i.e. `none`, when the group is missing from
    `my.group_styles`).  A truthy point `p = view_arrays[i][point_index]`
    leads to `renderer.circle({cx:p[0], cy:p[1], r:2}, style_data.fill_style,
    style_data.stroke_style)`; evaluating those arguments on an `undefined`
    `style_data` throws. -/
def draw_view_arrays (sty : Option StyleData) (idx : ℤ) :
    List (List (Option Pt)) → Except JsError (List Disc)
  | [] => Except.ok []
  | arr :: rest =>
      match jsGet arr idx with
      | none => draw_view_arrays sty idx rest
      | some p =>
          match sty with
          | none => Except.error JsError.typeError
          | some st =>
              match draw_view_arrays (some st) idx rest with
              | Except.error e => Except.error e
              | Except.ok ds =>
                  Except.ok (⟨p.1, p.2, 2, st.fill_style, st.stroke_style⟩ :: ds)

/-- The outer loop of `draw_current_points` (lines 131–147) over the viewers
    of the current stimulus.  For each viewer,
    `view_data.viewers[view_data.viewer_directory[name]]` is fetched and its
    `.group` read — a TypeError when the directory entry or the viewer record
    is missing — before the viewing arrays are scanned. -/
def draw_viewers (vd : ViewData) (gs : List (String × StyleData)) (idx : ℤ) :
    List (String × ViewArrays) → Except JsError (List Disc)
  | [] => Except.ok []
  | pr :: rest =>
      match (jsLookup vd.viewer_directory pr.1).bind
              (fun i => vd.viewers.get? i) with
      | none => Except.error JsError.typeError
      | some v =>
          match draw_view_arrays (jsLookup gs v.group) idx pr.2 with
          | Except.error e => Except.error e
          | Except.ok ds =>
              match draw_viewers vd gs idx rest with
              | Except.error e => Except.error e
              | Except.ok ds2 => Except.ok (ds ++ ds2)

/-- Embeds `draw_current_points()` (lines 131–147): draws one disc per
    (viewer, viewing array) pair whose array has a truthy entry at
    `my.point_index`; `my.stim_data` being `undefined` iterates nothing. -/
def draw_current_points (vd : ViewData) (gs : List (String × StyleData))
    (s : GazeState) : Except JsError (List Disc) :=
  match s.stim_data with
  | none => Except.ok []
  | some sd => draw_viewers vd gs s.point_index sd

/-- The self-rescheduling timeout chain: while `my.playing` is true at the
    moment a scheduled callback fires, `render_and_schedule` runs again, one
    firing per listed wall-clock time.  When `my.playing` is false the chain
    has not rearmed and no further iteration runs.  Returns the final state
    and the list of drawn indices, in order. -/
def runIters (sps : ℚ) : GazeState → List ℤ → GazeState × List ℤ
  | s, [] => (s, [])
  | s, t :: ts =>
      if s.playing = true then
        ((runIters sps (render_and_schedule sps t s).1 ts).1,
         (render_and_schedule sps t s).2 ::
           (runIters sps (render_and_schedule sps t s).1 ts).2)
      else (s, [])

/-- A state together with the number of `setTimeout` callbacks currently in
    flight: the browser event-loop context of the scheduler. -/
structure Env where
  st : GazeState
  pending : ℕ
deriving Repr

/-- One scheduled callback fires: it is consumed, and `render_and_schedule`
    rearms exactly one new timeout iff `my.playing` survived the iteration. -/
def Env.fire (sps : ℚ) (t : ℤ) (e : Env) : Env × ℤ :=
  (⟨(render_and_schedule sps t e.st).1,
    e.pending - 1 +
      (if (render_and_schedule sps t e.st).1.playing = true then 1 else 0)⟩,
   (render_and_schedule sps t e.st).2)

/-- A direct `play()` call: no pending timeout is consumed (the first
    iteration runs synchronously), and one new timeout is armed iff
    `my.playing` survived that iteration. -/
def Env.playCall (sps : ℚ) (from_start : Bool) (t : ℤ) (e : Env) : Env × ℤ :=
  (⟨(play sps from_start t e.st).1,
    e.pending +
      (if (play sps from_start t e.st).1.playing = true then 1 else 0)⟩,
   (play sps from_start t e.st).2)

/-- Modelled from the spec: the frame-loop index formula exactly as §4.2
    step 2 words it, `indexOffset + floor(elapsedMs * speedMultiplier *
    samplesPerSecond / 1000)`. -/
def spec_next_index (indexOffset : ℤ) (elapsedMs : ℤ) (speedMultiplier : ℚ)
    (samplesPerSecond : ℚ) : ℤ :=
  indexOffset + ⌊((elapsedMs : ℚ) * speedMultiplier * samplesPerSecond) / 1000⌋

/-- Modelled from the spec: "`sessionLength` = max array length across all
    viewers for the active stimulus", 0 when there is no data. -/
def spec_session_length (sd : Option StimData) : ℕ :=
  ((List.flatMap (sd.getD []) (fun p => p.2)).map List.length).foldr max 0

/-- A convenient fully-concrete initial state (fresh viewer object before any
    stimulus data is considered). -/
def init : GazeState :=
  { point_index := 0, point_index_offset := 0, playing := false,
    playback_speed := 1, play_started_at := 0, rendered_count := 0,
    gaze_len := 0, stim_index := 0, stim_name := none, stim_data := none }

section Lemmas

/-- The elapsed-time formula is monotone in the wall-clock time as long as the
    speed multiplier and the sampling rate are nonnegative. -/
lemma next_index_mono (sps : ℚ) (s : GazeState) {t1 t2 : ℤ}
    (h : t1 ≤ t2) (hsp : 0 ≤ s.playback_speed) (hsps : 0 ≤ sps) :
    next_index sps t1 s ≤ next_index sps t2 s := by
  unfold next_index elapsed_ms
  refine add_le_add_left (Int.floor_le_floor ?_) _
  have h1 : ((t1 - s.play_started_at : ℤ) : ℚ) ≤
      ((t2 - s.play_started_at : ℤ) : ℚ) := by
    exact_mod_cast sub_le_sub_right h _
  gcongr

/-- A loop iteration draws the not-yet-advanced `my.point_index`. -/
lemma step_drawn (sps : ℚ) (t : ℤ) (s : GazeState) :
    (render_and_schedule sps t s).2 = s.point_index := by
  unfold render_and_schedule
  split <;> rfl

/-- A loop iteration never changes the epoch, the speed or the cached
    session length. -/
lemma step_fields (sps : ℚ) (t : ℤ) (s : GazeState) :
    (render_and_schedule sps t s).1.play_started_at = s.play_started_at ∧
    (render_and_schedule sps t s).1.playback_speed = s.playback_speed ∧
    (render_and_schedule sps t s).1.gaze_len = s.gaze_len := by
  unfold render_and_schedule
  split <;> exact ⟨rfl, rfl, rfl⟩

/-- If an iteration ends with `my.playing` still true then no clamping
    happened: the new index is the raw elapsed-time index, it is still below
    the session length, and the offset survived unchanged. -/
lemma step_playing_inv (sps : ℚ) (t : ℤ) (s : GazeState)
    (h : (render_and_schedule sps t s).1.playing = true) :
    (render_and_schedule sps t s).1.point_index = next_index sps t s ∧
    next_index sps t s < (s.gaze_len : ℤ) ∧
    (render_and_schedule sps t s).1.point_index_offset =
      s.point_index_offset ∧
    s.playing = true := by
  by_cases hcl : (s.gaze_len : ℤ) ≤ next_index sps t s
  · unfold render_and_schedule at h
    rw [if_pos hcl] at h
    exact absurd h (by simp)
  · unfold render_and_schedule at h ⊢
    rw [if_neg hcl] at h ⊢
    have hpl : s.playing = true := h
    exact ⟨rfl, not_le.mp hcl, by simp [hpl], hpl⟩

/-- During a running iteration the drawn index never exceeds the index the
    iteration advances to (given the raw formula has not fallen behind the
    current index and the current index is in range). -/
lemma step_advances (sps : ℚ) (t : ℤ) (s : GazeState)
    (hle : s.point_index ≤ next_index sps t s)
    (hlt : s.point_index < (s.gaze_len : ℤ)) :
    s.point_index ≤ (render_and_schedule sps t s).1.point_index := by
  unfold render_and_schedule
  by_cases hcl : (s.gaze_len : ℤ) ≤ next_index sps t s
  · rw [if_pos hcl]
    show s.point_index ≤ (s.gaze_len : ℤ) - 1
    omega
  · rw [if_neg hcl]
    exact hle

/-- The invariant carried between iterations of one timing chain: while
    `my.playing` is true, the current index is dominated by the raw index at
    the previous firing time and is in range. -/
def IterInv (sps : ℚ) (tprev : ℤ) (s : GazeState) : Prop :=
  s.playing = true →
    s.point_index ≤ next_index sps tprev s ∧
    s.point_index < (s.gaze_len : ℤ)

/-- Preservation: one firing of the chain at time `t` re-establishes the
    invariant at time `t`. -/
lemma step_inv (sps : ℚ) (t : ℤ) (s : GazeState) :
    IterInv sps t (render_and_schedule sps t s).1 := by
  intro hpl
  obtain ⟨hra, hlt, hoff, hpl0⟩ := step_playing_inv sps t s hpl
  obtain ⟨hep, hspd, hgl⟩ := step_fields sps t s
  have hni : next_index sps t (render_and_schedule sps t s).1 =
      next_index sps t s := by
    unfold next_index elapsed_ms
    rw [hep, hspd, hoff]
  constructor
  · rw [hra, hni]
  · rw [hra, hgl]
    exact hlt

/-- Core of the ordering guarantee: along one timing chain fired at
    non-decreasing times, with a nonnegative (and unchanged — the model has
    no speed-change event inside `runIters`) speed, the list of drawn sample
    indices is non-decreasing, below any lower bound of the first index. -/
lemma runIters_chain_aux (sps : ℚ) (hsps : 0 ≤ sps) :
    ∀ (ts : List ℤ) (s : GazeState) (tprev p : ℤ),
      0 ≤ s.playback_speed →
      List.Chain' (· ≤ ·) (tprev :: ts) →
      IterInv sps tprev s →
      p ≤ s.point_index →
      List.Chain' (· ≤ ·) (p :: (runIters sps s ts).2) := by
  intro ts
  induction ts with
  | nil =>
      intro s tprev p _ _ _ _
      simp only [runIters]
      exact List.chain'_singleton p
  | cons t ts ih =>
      intro s tprev p hsp hch hinv hp
      by_cases hpl : s.playing = true
      · have htt : tprev ≤ t := (List.chain'_cons.mp hch).1
        have hch2 : List.Chain' (· ≤ ·) (t :: ts) :=
          (List.chain'_cons.mp hch).2
        have hinv2 := hinv hpl
        have hle : s.point_index ≤ next_index sps t s :=
          le_trans hinv2.1 (next_index_mono sps s htt hsp hsps)
        have hadv := step_advances sps t s hle hinv2.2
        have hspd := (step_fields sps t s).2.1
        have hinv3 : IterInv sps t (render_and_schedule sps t s).1 :=
          step_inv sps t s
        have hrec := ih (render_and_schedule sps t s).1 t s.point_index
          (by rw [hspd]; exact hsp) hch2 hinv3 hadv
        have hdr := step_drawn sps t s
        simp only [runIters, hpl, if_true]
        rw [hdr]
        exact List.chain'_cons.mpr ⟨hp, hrec⟩
      · simp only [runIters, hpl]
        simp only [Bool.false_eq_true, if_false]
        exact List.chain'_singleton p

/-- The value of the raw index formula at the instant the epoch is taken. -/
lemma next_index_at_epoch (sps : ℚ) (t : ℤ) (s : GazeState)
    (h : s.play_started_at = t) :
    next_index sps t s = s.point_index_offset := by
  unfold next_index elapsed_ms
  rw [h]
  simp

/-- Evaluation rule for an unclamped iteration. -/
lemma step_eval_noclamp (sps : ℚ) (t : ℤ) (s : GazeState) (n : ℤ)
    (hn : next_index sps t s = n) (h : n < (s.gaze_len : ℤ)) :
    render_and_schedule sps t s =
      ({ s with rendered_count := s.rendered_count + 1,
                point_index_offset :=
                  if s.playing then s.point_index_offset else s.point_index,
                point_index := n }, s.point_index) := by
  unfold render_and_schedule
  rw [hn, if_neg (not_le.mpr h)]

/-- Evaluation rule for a clamping iteration. -/
lemma step_eval_clamp (sps : ℚ) (t : ℤ) (s : GazeState) (n : ℤ)
    (hn : next_index sps t s = n) (h : (s.gaze_len : ℤ) ≤ n) :
    render_and_schedule sps t s =
      ({ s with rendered_count := s.rendered_count + 1,
                playing := false,
                point_index_offset := s.point_index,
                point_index := (s.gaze_len : ℤ) - 1 }, s.point_index) := by
  unfold render_and_schedule
  rw [hn, if_pos h]

/-- What `play(true)` does: both indices reset to 0, epoch taken, and the
    synchronous first iteration draws index 0 (at zero elapsed time the raw
    formula yields the offset, 0); when the session is nonempty the chain is
    alive with the index still at 0. -/
lemma play_true_eval (sps : ℚ) (t : ℤ) (s : GazeState) :
    (play sps true t s).2 = 0 ∧
    (play sps true t s).1.point_index_offset = 0 ∧
    (play sps true t s).1.play_started_at = t ∧
    (play sps true t s).1.playback_speed = s.playback_speed ∧
    (play sps true t s).1.gaze_len = s.gaze_len ∧
    (0 < s.gaze_len →
      (play sps true t s).1.playing = true ∧
      (play sps true t s).1.point_index = 0) ∧
    (s.gaze_len = 0 → (play sps true t s).1.playing = false) := by
  unfold play
  rw [if_pos (Or.inl rfl)]
  have hni : next_index sps t
      { s with play_started_at := t, rendered_count := 0,
               point_index := 0, point_index_offset := 0,
               playing := true } = 0 :=
    next_index_at_epoch sps t _ rfl
  by_cases hL : 0 < s.gaze_len
  · rw [step_eval_noclamp sps t _ 0 hni (by exact_mod_cast hL)]
    refine ⟨rfl, rfl, rfl, rfl, rfl, fun _ => ⟨rfl, rfl⟩, fun h0 => ?_⟩
    omega
  · have h0 : s.gaze_len = 0 := by omega
    rw [step_eval_clamp sps t _ 0 hni (by simp [h0])]
    exact ⟨rfl, rfl, rfl, rfl, rfl, fun h => absurd h hL, fun _ => rfl⟩

/-- Any `play` call ends in a state satisfying the chain invariant at the
    epoch it records. -/
lemma play_inv (sps : ℚ) (fs : Bool) (t : ℤ) (s : GazeState) :
    IterInv sps t (play sps fs t s).1 := by
  unfold play
  split
  · exact step_inv sps t _
  · exact step_inv sps t _

end Lemmas

section Examples

/-- The state reached by `play(true)` at time 0 from a fresh state whose
    current stimulus has 90 samples, once the synchronous first iteration has
    run. -/
def stateA : GazeState :=
  { point_index := 0, point_index_offset := 0, playing := true,
    playback_speed := 1, play_started_at := 0, rendered_count := 1,
    gaze_len := 90, stim_index := 0, stim_name := none, stim_data := none }

/-- State `stateA` after the first scheduled iteration fires at t = 233ms
    (`floor(233 * 30 / 1000) = 6`). -/
def stateB : GazeState :=
  { stateA with point_index := 6, rendered_count := 2 }

/-- State `stateB` after the play/pause button is clicked (toggles `my.playing`
    off; nothing else happens). -/
def stateC : GazeState :=
  { stateB with playing := false }

/-- State `stateC` after the already-scheduled iteration fires at t = 266ms: not
    playing, so `my.point_index_offset` is set to the drawn index 6, while
    `my.point_index` still advances to `floor(266 * 30 / 1000) = 7`. -/
def stateD : GazeState :=
  { stateC with point_index := 7, point_index_offset := 6,
                rendered_count := 3 }

lemma play_stateA :
    play 30 true 0 { init with gaze_len := 90 } = (stateA, 0) := by
  unfold play
  rw [if_pos (Or.inl rfl)]
  rw [step_eval_noclamp 30 0 _ 0 (next_index_at_epoch 30 0 _ rfl)
    (by norm_num [init])]
  rfl

lemma step_stateB : render_and_schedule 30 233 stateA = (stateB, 0) := by
  have hn : next_index 30 233 stateA = 6 := by
    unfold next_index elapsed_ms stateA
    norm_num
  rw [step_eval_noclamp 30 233 stateA 6 hn (by norm_num [stateA])]
  rfl

lemma click_stateC : handle_play_pause_click 30 250 stateB = (stateC, none) := by
  unfold handle_play_pause_click
  rfl

lemma step_stateD : render_and_schedule 30 266 stateC = (stateD, 6) := by
  have hn : next_index 30 266 stateC = 7 := by
    unfold next_index elapsed_ms stateC stateB stateA
    norm_num
  rw [step_eval_noclamp 30 266 stateC 7 hn (by norm_num [stateC, stateB, stateA])]
  rfl

/-- Resuming from `stateD`: the toggle turns `my.playing` back on and calls
    `play()` with `from_start` falsy; the index 7 is below 89 so nothing
    resets, the epoch becomes 1000, and the synchronous iteration draws the
    stale index 7 before snapping back to the offset 6. -/
lemma click_resume :
    handle_play_pause_click 30 1000 stateD =
      ({ stateD with playing := true, play_started_at := 1000,
                     rendered_count := 1, point_index := 6 }, some 7) := by
  unfold handle_play_pause_click
  simp only [stateD, stateC, stateB, stateA]
  norm_num
  unfold play
  rw [if_neg (by norm_num)]
  rw [step_eval_noclamp 30 1000 _ 6 (next_index_at_epoch 30 1000 _ rfl)
    (by norm_num)]
  exact ⟨rfl, rfl⟩

/-- State `stateA` after a scheduled iteration fires at t = 1000ms
    (`floor(1000 * 30 / 1000) = 30`). -/
def stateF : GazeState :=
  { stateA with point_index := 30, rendered_count := 2 }

/-- State `stateF` with the speed control changed to 0.1, then a scheduled
    iteration at t = 1100ms: the whole 1100ms of elapsed time is rescaled by
    the new multiplier, `floor(1100 * 0.1 * 30 / 1000) = 3`. -/
def stateH : GazeState :=
  { stateF with playback_speed := 1/10, point_index := 3,
                rendered_count := 3 }

lemma step_stateF : render_and_schedule 30 1000 stateA = (stateF, 0) := by
  have hn : next_index 30 1000 stateA = 30 := by
    unfold next_index elapsed_ms stateA
    norm_num
  rw [step_eval_noclamp 30 1000 stateA 30 hn (by norm_num [stateA])]
  rfl

lemma step_stateH :
    render_and_schedule 30 1100 (handle_speed_change (1/10) stateF) =
      (stateH, 30) := by
  have hn : next_index 30 1100 (handle_speed_change (1/10) stateF) = 3 := by
    unfold next_index elapsed_ms handle_speed_change stateF stateA
    norm_num
  rw [step_eval_noclamp 30 1100 _ 3 hn
    (by norm_num [handle_speed_change, stateF, stateA])]
  rfl

/-- The state reached by `play(true)` at time 0 on a 10-sample stimulus. -/
def stateJ : GazeState :=
  { point_index := 0, point_index_offset := 0, playing := true,
    playback_speed := 1, play_started_at := 0, rendered_count := 1,
    gaze_len := 10, stim_index := 0, stim_name := none, stim_data := none }

lemma play_stateJ :
    play 30 true 0 { init with gaze_len := 10 } = (stateJ, 0) := by
  unfold play
  rw [if_pos (Or.inl rfl)]
  rw [step_eval_noclamp 30 0 _ 0 (next_index_at_epoch 30 0 _ rfl)
    (by norm_num [init])]
  rfl

lemma run_stateJ :
    runIters 30 stateJ [1000] =
      ({ stateJ with playing := false, point_index := 9,
                     rendered_count := 2 }, [0]) := by
  have hs : render_and_schedule 30 1000 stateJ =
      ({ stateJ with playing := false, point_index := 9,
                     rendered_count := 2 }, 0) := by
    have hn : next_index 30 1000 stateJ = 30 := by
      unfold next_index elapsed_ms stateJ
      norm_num
    rw [step_eval_clamp 30 1000 stateJ 30 hn (by norm_num [stateJ])]
    rfl
  simp only [runIters, hs]
  rfl

lemma play_stateA_at500 :
    play 30 false 500 stateA =
      ({ stateA with play_started_at := 500, rendered_count := 1 }, 0) := by
  unfold play
  rw [if_neg (fun h => h.elim (by decide) (by norm_num [stateA]))]
  rw [step_eval_noclamp 30 500 _ 0 (next_index_at_epoch 30 500 _ rfl)
    (by norm_num [stateA])]
  rfl

end Examples

section Claims

/-- C1: on every frame-loop iteration while Running, the next sample index is
    computed as `indexOffset + floor(elapsedMs * speedMultiplier *
    samplesPerSecond / 1000)` — the code's advanced index coincides with the
    spec's formula whenever the clamp does not fire — and concretely, with
    `samplesPerSecond = 30`, `speedMultiplier = 1` and `sessionLength = 90`,
    calling `play(true)` and then running an iteration at exactly 1000ms
    elapsed yields `currentIndex = 30` (exactly, hence within ±1). -/
theorem C1_next_index_formula :
    (∀ (sps : ℚ) (t : ℤ) (s : GazeState),
        s.playing = true →
        next_index sps t s < (s.gaze_len : ℤ) →
        (render_and_schedule sps t s).1.point_index =
          spec_next_index s.point_index_offset (elapsed_ms t s)
            s.playback_speed sps) ∧
    (∀ (t0 : ℤ) (s : GazeState),
        s.playback_speed = 1 →
        s.gaze_len = 90 →
        (render_and_schedule 30 (t0 + 1000)
          (play 30 true t0 s).1).1.point_index = 30) := by
  constructor
  · intro sps t s _ hlt
    rw [step_eval_noclamp sps t s _ rfl hlt]
    rfl
  · intro t0 s hsp hL
    obtain ⟨hd, hoff, hep, hspd, hgl, hpos, hzero⟩ := play_true_eval 30 t0 s
    have hn : next_index 30 (t0 + 1000) (play 30 true t0 s).1 = 30 := by
      unfold next_index elapsed_ms
      rw [hoff, hep, hspd, hsp, add_sub_cancel_left]
      norm_num
    rw [step_eval_noclamp 30 (t0 + 1000) _ 30 hn (by rw [hgl, hL]; norm_num)]

/-- Witness for C1 at a concrete state. -/
theorem C1_witness :
    ({ init with gaze_len := 90 } : GazeState).playback_speed = 1 ∧
    (render_and_schedule 30 (0 + 1000)
      (play 30 true 0 { init with gaze_len := 90 }).1).1.point_index = 30 :=
  ⟨rfl, C1_next_index_formula.2 0 { init with gaze_len := 90 } rfl rfl⟩

/-- C2 counterexample: a play session begun by resuming after a mid-session
    pause draws, as its very first frame, the stale `currentIndex` 7 rather
    than the `indexOffset` 6 it resumes from — reached by a concrete trace
    `play(true)`, an iteration at 233ms, a pause click, the already-scheduled
    iteration at 266ms, and a resume click at 1000ms. -/
theorem C2_counterexample :
    (handle_play_pause_click 30 1000 stateD).2 = some 7 ∧
    stateD.point_index_offset = 6 ∧
    some (7 : ℤ) ≠ some (6 : ℤ) ∧
    render_and_schedule 30 266 stateC = (stateD, 6) ∧
    handle_play_pause_click 30 250 stateB = (stateC, none) ∧
    render_and_schedule 30 233 stateA = (stateB, 0) ∧
    play 30 true 0 { init with gaze_len := 90 } = (stateA, 0) := by
  refine ⟨?_, rfl, by decide, step_stateD, click_stateC, step_stateB,
    play_stateA⟩
  rw [click_resume]

/-- C2 (amended): on a frame-loop iteration where the raw next index reaches
    `sessionLength`, the code clamps it to `sessionLength - 1`, transitions
    to Stopped, sets `indexOffset` to that iteration's pre-advance
    `currentIndex`, and draws that pre-advance index; the very first drawn
    frame of a session started with `play(true)` is index 0, which is that
    session's `indexOffset`; and in a concrete complete session the final
    sample `sessionLength - 1` is never drawn. -/
theorem C2_clamp_stop :
    (∀ (sps : ℚ) (t : ℤ) (s : GazeState),
        s.playing = true →
        (s.gaze_len : ℤ) ≤ next_index sps t s →
        (render_and_schedule sps t s).1.point_index = (s.gaze_len : ℤ) - 1 ∧
        (render_and_schedule sps t s).1.playing = false ∧
        (render_and_schedule sps t s).1.point_index_offset = s.point_index ∧
        (render_and_schedule sps t s).2 = s.point_index) ∧
    (∀ (sps : ℚ) (t : ℤ) (s : GazeState),
        (play sps true t s).2 = 0 ∧
        (play sps true t s).1.point_index_offset = 0) ∧
    ((play 30 true 0 { init with gaze_len := 10 }).2 = 0 ∧
     (runIters 30 (play 30 true 0 { init with gaze_len := 10 }).1
       [1000]).2 = [0] ∧
     (runIters 30 (play 30 true 0 { init with gaze_len := 10 }).1
       [1000]).1.playing = false ∧
     (0 : ℤ) ≠ ((10 : ℕ) : ℤ) - 1) := by
  refine ⟨?_, ?_, ?_⟩
  · intro sps t s _ hcl
    rw [step_eval_clamp sps t s _ rfl hcl]
    exact ⟨rfl, rfl, rfl, rfl⟩
  · intro sps t s
    obtain ⟨hd, hoff, _⟩ := play_true_eval sps t s
    exact ⟨hd, hoff⟩
  · rw [play_stateJ]
    rw [show (stateJ, (0 : ℤ)).1 = stateJ from rfl, run_stateJ]
    exact ⟨rfl, rfl, rfl, by decide⟩

/-- Witness for C2 at a concrete clamping iteration. -/
theorem C2_witness :
    (render_and_schedule 30 1000 stateJ).1.point_index =
      (stateJ.gaze_len : ℤ) - 1 ∧
    (render_and_schedule 30 1000 stateJ).1.playing = false ∧
    (render_and_schedule 30 1000 stateJ).1.point_index_offset =
      stateJ.point_index ∧
    (render_and_schedule 30 1000 stateJ).2 = stateJ.point_index :=
  C2_clamp_stop.1 30 1000 stateJ rfl
    (by unfold next_index elapsed_ms stateJ; norm_num)

/-- C3: the published `pause()` has an empty body — it changes nothing at
    all, in particular it does not set the Stopped state, contradicting the
    intended pause/resume behavior the rest of the code (the toggle handler
    and the loop's offset bookkeeping) is built for. -/
theorem C3_pause_empty_body (s : GazeState) :
    pause s = s ∧
    (pause s).playing = s.playing ∧
    (pause s).point_index = s.point_index ∧
    (pause s).point_index_offset = s.point_index_offset :=
  ⟨rfl, rfl, rfl, rfl⟩

/-- C4 counterexample: calling `play()` while already Running is not a
    no-op: from the running `stateA` (epoch 0, one timeout in flight) a
    second `play(false)` at t = 500 rewrites the playback epoch to 500 and
    leaves two self-rescheduling chains in flight. -/
theorem C4_counterexample :
    stateA.playing = true ∧
    stateA.play_started_at = 0 ∧
    (Env.playCall 30 false 500 ⟨stateA, 1⟩).1.st.play_started_at = 500 ∧
    (Env.playCall 30 false 500 ⟨stateA, 1⟩).1.pending = 2 ∧
    (500 : ℤ) ≠ 0 := by
  refine ⟨rfl, rfl, ?_, ?_, by decide⟩
  · unfold Env.playCall
    rw [show (⟨stateA, 1⟩ : Env).st = stateA from rfl, play_stateA_at500]
  · unfold Env.playCall
    rw [show (⟨stateA, 1⟩ : Env).st = stateA from rfl, play_stateA_at500]
    rfl

/-- C4 (amended): `play()` has no Running guard: called while Running (with
    the offset still in range and a nonempty session) it resets the playback
    epoch to the call time and the rendered count, stays Running, and arms
    one more timeout on top of those already in flight — an overlapping
    second chain. -/
theorem C4_play_not_guarded (sps : ℚ) (t : ℤ) (e : Env)
    (hpl : e.st.playing = true)
    (hoff : e.st.point_index_offset < (e.st.gaze_len : ℤ))
    (hL : 0 < e.st.gaze_len) :
    (Env.playCall sps false t e).1.st.play_started_at = t ∧
    (Env.playCall sps false t e).1.st.rendered_count = 1 ∧
    (Env.playCall sps false t e).1.st.playing = true ∧
    (Env.playCall sps false t e).1.pending = e.pending + 1 := by
  unfold Env.playCall play
  by_cases hrs : (e.st.gaze_len : ℤ) - 1 ≤ e.st.point_index
  · rw [if_pos (Or.inr hrs)]
    rw [step_eval_noclamp sps t
      { e.st with play_started_at := t, rendered_count := 0,
                  point_index := 0, point_index_offset := 0,
                  playing := true }
      0 (next_index_at_epoch sps t _ rfl)
      (by show (0 : ℤ) < (e.st.gaze_len : ℤ); exact_mod_cast hL)]
    exact ⟨rfl, rfl, rfl, rfl⟩
  · rw [if_neg (fun h => h.elim (by decide) hrs)]
    rw [step_eval_noclamp sps t
      { e.st with play_started_at := t, rendered_count := 0,
                  playing := true }
      e.st.point_index_offset (next_index_at_epoch sps t _ rfl)
      (by show e.st.point_index_offset < (e.st.gaze_len : ℤ); exact hoff)]
    exact ⟨rfl, rfl, rfl, rfl⟩

/-- Witness for C4 at a concrete running environment. -/
theorem C4_witness :
    (Env.playCall 30 false 500 ⟨stateA, 1⟩).1.st.play_started_at = 500 ∧
    (Env.playCall 30 false 500 ⟨stateA, 1⟩).1.st.rendered_count = 1 ∧
    (Env.playCall 30 false 500 ⟨stateA, 1⟩).1.st.playing = true ∧
    (Env.playCall 30 false 500 ⟨stateA, 1⟩).1.pending =
      (⟨stateA, 1⟩ : Env).pending + 1 :=
  C4_play_not_guarded 30 500 ⟨stateA, 1⟩ rfl (by norm_num [stateA])
    (by norm_num [stateA])

/-- C5 counterexample: drawn indices regress within one play session.  First
    scenario: after `play(true)` and an iteration at 1000ms (drawing 0,
    advancing to 30), the speed control is set to 0.1; the iteration at
    1100ms draws 30 but recomputes the index as
    `floor(1100 * 0.1 * 30 / 1000) = 3`, so the iteration at 1200ms draws 3 —
    the elapsed time already consumed was retroactively rescaled.  Second
    scenario: resuming after a mid-session pause draws 7 and then 6 with the
    speed multiplier constant at 1. -/
theorem C5_counterexample :
    ((render_and_schedule 30 1100
        (handle_speed_change (1/10)
          (render_and_schedule 30 1000 stateA).1)).2 = 30 ∧
     (render_and_schedule 30 1200
        (render_and_schedule 30 1100
          (handle_speed_change (1/10)
            (render_and_schedule 30 1000 stateA).1)).1).2 = 3 ∧
     (3 : ℤ) < 30 ∧
     play 30 true 0 { init with gaze_len := 90 } = (stateA, 0)) ∧
    ((handle_play_pause_click 30 1000 stateD).2 = some 7 ∧
     (render_and_schedule 30 1100
        (handle_play_pause_click 30 1000 stateD).1).2 = 6 ∧
     (6 : ℤ) < 7) := by
  constructor
  · rw [show (render_and_schedule 30 1000 stateA).1 = stateF from by
      rw [step_stateF]]
    rw [show (render_and_schedule 30 1100
        (handle_speed_change (1/10) stateF)).1 = stateH from by
      rw [step_stateH]]
    refine ⟨?_, ?_, by decide, play_stateA⟩
    · rw [show (render_and_schedule 30 1100
          (handle_speed_change (1/10) stateF)).2 = 30 from by
        rw [step_stateH]]
    · rw [step_drawn]
      rfl
  · rw [click_resume]
    exact ⟨rfl, by rw [step_drawn], by decide⟩

/-- C5 (amended): within one play session started with `play(true)` and with
    the speed multiplier unchanged for the whole session, the drawn sample
    indices across the synchronous first frame and every later chain firing
    at non-decreasing wall-clock times form a non-decreasing sequence; a
    speed change between iterations rescales all elapsed time since the
    epoch by the new multiplier, so a decrease can make the index regress
    (see the counterexample). -/
theorem C5_nondecreasing_constant_speed (sps : ℚ) (s : GazeState) (t : ℤ)
    (ts : List ℤ) (hsps : 0 ≤ sps) (hsp : 0 ≤ s.playback_speed)
    (hch : List.Chain' (· ≤ ·) (t :: ts)) :
    List.Chain' (· ≤ ·)
      ((play sps true t s).2 ::
        (runIters sps (play sps true t s).1 ts).2) := by
  obtain ⟨hd, hoff, hep, hspd, hgl, hpos, hzero⟩ := play_true_eval sps t s
  rw [hd]
  by_cases hpl : (play sps true t s).1.playing = true
  · have hpi : (play sps true t s).1.point_index = 0 := by
      by_cases hL : 0 < s.gaze_len
      · exact (hpos hL).2
      · rw [hzero (by omega)] at hpl
        exact absurd hpl (by decide)
    exact runIters_chain_aux sps hsps ts (play sps true t s).1 t 0
      (by rw [hspd]; exact hsp) hch (play_inv sps true t s)
      (by rw [hpi])
  · cases ts with
    | nil => exact List.chain'_singleton 0
    | cons u us =>
        rw [show runIters sps (play sps true t s).1 (u :: us) =
            ((play sps true t s).1, []) from by
          simp only [runIters]
          rw [if_neg hpl]]
        exact List.chain'_singleton 0

/-- Witness for C5 on a concrete session. -/
theorem C5_witness :
    List.Chain' (· ≤ ·)
      ((play 30 true 0 { init with gaze_len := 90 }).2 ::
        (runIters 30 (play 30 true 0 { init with gaze_len := 90 }).1
          [233, 500]).2) :=
  C5_nondecreasing_constant_speed 30 { init with gaze_len := 90 } 0
    [233, 500] (by norm_num) (by norm_num [init])
    (by simp [List.chain'_cons])

/-- C6 counterexample: `handle_speed_change` accepts 0 and -1 without any
    error and mutates the state (the speed changes from 1 to the new value),
    refuting "fails with InvalidSpeed and leaves the playback state
    unchanged". -/
theorem C6_counterexample :
    (handle_speed_change 0 init).playback_speed = 0 ∧
    init.playback_speed = 1 ∧
    (0 : ℚ) ≠ 1 ∧
    (handle_speed_change (-1) init).playback_speed = -1 :=
  ⟨rfl, rfl, by norm_num, rfl⟩

/-- C6 (amended): `handle_speed_change` performs no validation whatsoever —
    it unconditionally overwrites `speedMultiplier` with the parsed value
    (zero and negative values included) and touches nothing else, and the
    stored value is what the next loop iteration's index formula uses. -/
theorem C6_setSpeed_unvalidated (v : ℚ) (s : GazeState) (sps : ℚ) (t : ℤ) :
    handle_speed_change v s = { s with playback_speed := v } ∧
    next_index sps t (handle_speed_change v s) =
      s.point_index_offset +
        ⌊((elapsed_ms t s : ℚ) * v * sps) / 1000⌋ :=
  ⟨rfl, rfl⟩

end Claims

section SessionLemmas

lemma foldr_max_append (l1 l2 : List ℕ) :
    (l1 ++ l2).foldr max 0 = max (l1.foldr max 0) (l2.foldr max 0) := by
  induction l1 with
  | nil => simp
  | cons a l ih => simp [List.foldr_cons, ih, max_assoc]

lemma mem_le_foldr_max (l : List ℕ) (a : ℕ) (h : a ∈ l) :
    a ≤ l.foldr max 0 := by
  induction l with
  | nil => cases h
  | cons b l ih =>
      rcases List.mem_cons.mp h with h1 | h2
      · rw [h1]
        exact le_max_left _ _
      · exact le_trans (ih h2) (le_max_right _ _)

/-- The inner loop of `gaze_len` computes a running maximum. -/
lemma foldl_max_len (l : List (List (Option Pt))) (m : ℕ) :
    l.foldl (fun m a => if m < a.length then a.length else m) m =
      max m ((l.map List.length).foldr max 0) := by
  induction l generalizing m with
  | nil => simp
  | cons a l ih =>
      simp only [List.foldl_cons, List.map_cons, List.foldr_cons]
      rw [ih]
      have h : (if m < a.length then a.length else m) = max m a.length := by
        split <;> omega
      rw [h, max_assoc]

/-- The outer loop of `gaze_len` computes the maximum over all viewing
    arrays of all viewers. -/
lemma outer_foldl_max (d : List (String × ViewArrays)) (m : ℕ) :
    d.foldl (fun mx p =>
      p.2.foldl (fun m a => if m < a.length then a.length else m) mx) m =
      max m
        (((List.flatMap d (fun p => p.2)).map List.length).foldr max 0) := by
  induction d generalizing m with
  | nil => simp
  | cons p d ih =>
      simp only [List.foldl_cons, List.flatMap_cons, List.map_append]
      rw [ih, foldl_max_len, foldr_max_append, max_assoc]

/-- The code's `gaze_len` agrees with the spec's wording of
    `sessionLength`. -/
lemma gaze_len_eq_spec (sd : Option StimData) :
    gaze_len sd = spec_session_length sd := by
  cases sd with
  | none => rfl
  | some d =>
      unfold gaze_len spec_session_length
      simp only [Option.getD_some]
      rw [outer_foldl_max]
      simp

lemma jsGet_none_of_length_le (arr : List (Option Pt)) (idx : ℤ)
    (h : (arr.length : ℤ) ≤ idx) : jsGet arr idx = none := by
  unfold jsGet
  rw [if_neg (by omega)]
  rw [List.getD_eq_getElem?_getD, List.getElem?_eq_none (by omega),
    Option.getD_none]

lemma length_le_gaze_len (sd : StimData) (arr : List (Option Pt))
    (h : arr ∈ List.flatMap sd (fun pr => pr.2)) :
    arr.length ≤ gaze_len (some sd) := by
  rw [gaze_len_eq_spec]
  unfold spec_session_length
  simp only [Option.getD_some]
  exact mem_le_foldr_max _ _ (List.mem_map_of_mem List.length h)

end SessionLemmas

section DrawLemmas

/-- With a resolved style, the inner draw loop draws exactly the truthy
    points of the viewing arrays, in order. -/
lemma draw_view_arrays_ok (st : StyleData) (idx : ℤ)
    (arrs : List (List (Option Pt))) :
    draw_view_arrays (some st) idx arrs =
      Except.ok ((arrs.filterMap (fun arr => jsGet arr idx)).map
        (fun p => ⟨p.1, p.2, 2, st.fill_style, st.stroke_style⟩)) := by
  induction arrs with
  | nil => rfl
  | cons arr rest ih =>
      cases h : jsGet arr idx with
      | none => simp [draw_view_arrays, List.filterMap_cons, h, ih]
      | some p => simp [draw_view_arrays, List.filterMap_cons, h, ih]

lemma length_filterMap_present (idx : ℤ) (l : List (List (Option Pt))) :
    (l.filterMap (fun arr => jsGet arr idx)).length =
      l.countP (fun arr => (jsGet arr idx).isSome) := by
  induction l with
  | nil => rfl
  | cons arr rest ih =>
      cases h : jsGet arr idx with
      | none => simp [List.filterMap_cons, List.countP_cons, h, ih]
      | some p => simp [List.filterMap_cons, List.countP_cons, h, ih]

/-- Well-formedness of a stimulus's viewer records: every viewer name of the
    stimulus data resolves through `viewer_directory` to a viewer record
    whose group has a style. -/
def Resolvable (vd : ViewData) (gs : List (String × StyleData))
    (sd : StimData) : Prop :=
  ∀ pr ∈ sd, ∃ v : Viewer,
    (jsLookup vd.viewer_directory pr.1).bind
      (fun i => vd.viewers.get? i) = some v ∧
    (jsLookup gs v.group).isSome = true

lemma draw_viewers_ok (vd : ViewData) (gs : List (String × StyleData))
    (idx : ℤ) :
    ∀ sd : StimData, Resolvable vd gs sd →
      ∃ ds : List Disc, draw_viewers vd gs idx sd = Except.ok ds ∧
        ds.length = (List.flatMap sd (fun pr => pr.2)).countP
          (fun arr => (jsGet arr idx).isSome) := by
  intro sd
  induction sd with
  | nil => exact fun _ => ⟨[], rfl, rfl⟩
  | cons pr rest ih =>
      intro hres
      obtain ⟨v, hv, hsty⟩ := hres pr (List.mem_cons_self pr rest)
      obtain ⟨st, hst⟩ := Option.isSome_iff_exists.mp hsty
      obtain ⟨ds2, hds2, hlen2⟩ :=
        ih (fun q hq => hres q (List.mem_cons_of_mem _ hq))
      refine ⟨(pr.2.filterMap (fun arr => jsGet arr idx)).map
          (fun p => ⟨p.1, p.2, 2, st.fill_style, st.stroke_style⟩) ++ ds2,
        ?_, ?_⟩
      · simp only [draw_viewers, hv, hst, draw_view_arrays_ok, hds2]
      · simp [List.length_append, hlen2, length_filterMap_present,
          List.flatMap_cons, List.countP_append]

end DrawLemmas

section OverdrawLemmas

lemma overdraw_loop_drawn :
    ∀ (l : List ℕ) (s : GazeState),
      (overdraw_loop s l).2 = l.map (fun i : ℕ => (i : ℤ)) := by
  intro l
  induction l with
  | nil => intro s; rfl
  | cons i is ih =>
      intro s
      simp only [overdraw_loop, List.map_cons]
      rw [ih]

lemma overdraw_loop_offset :
    ∀ (l : List ℕ) (s : GazeState),
      (overdraw_loop s l).1.point_index_offset = s.point_index_offset := by
  intro l
  induction l with
  | nil => intro s; rfl
  | cons i is ih =>
      intro s
      show (overdraw_loop { s with point_index := (i : ℤ) } is).1.point_index_offset = _
      rw [ih]

lemma overdraw_loop_append_last :
    ∀ (l : List ℕ) (x : ℕ) (s : GazeState),
      (overdraw_loop s (l ++ [x])).1.point_index = (x : ℤ) := by
  intro l
  induction l with
  | nil => intro x s; rfl
  | cons i is ih =>
      intro x s
      show (overdraw_loop { s with point_index := (i : ℤ) }
        (is ++ [x])).1.point_index = _
      rw [ih]

end OverdrawLemmas

section ExampleData

/-- A tiny concrete dataset: one stimulus, one viewer in one styled group,
    three viewing arrays of lengths 1, 2 and 0 (so the session length is 2),
    with an absent sample at index 0 of the second array. -/
def stimA : String := "stim0"

def viewerA : String := "alice"

def groupA : String := "g0"

def fillA : String := "rgb-f"

def strokeA : String := "rgb-s"

def sdEx : StimData :=
  [(viewerA, [[some (1, 2)], [none, some (3, 4)], []])]

def gsEx : List (String × StyleData) :=
  [(groupA, { fill_style := fillA, stroke_style := strokeA })]

def vdEx : ViewData :=
  { stims := [stimA], viewdata := [(stimA, sdEx)],
    viewer_directory := [(viewerA, 0)], viewers := [{ group := groupA }],
    samples_per_second := 30 }

end ExampleData

section ClaimsB

/-- C7 counterexample: `set_stim_index` with the out-of-range index 5 on a
    one-stimulus dataset does mutate existing state — `my.stim_index` is
    overwritten before the failing navigation lookup — and the failure is a
    runtime TypeError, not a typed InvalidIndex. -/
theorem C7_counterexample :
    (set_stim_index vdEx 5 { init with stim_index := 0 }).2 =
      some JsError.typeError ∧
    (set_stim_index vdEx 5 { init with stim_index := 0 }).1.stim_index = 5 ∧
    (5 : ℤ) ≠ 0 := by
  refine ⟨?_, ?_, by decide⟩
  · unfold set_stim_index
    rw [if_neg (by decide)]
  · unfold set_stim_index
    rw [if_neg (by decide)]

/-- C7 (amended): `set_stim_index` with an index outside
    `[0, stimuli.length)` throws a runtime TypeError (from calling a DOM
    method on the missing navigation element), after having already
    overwritten the active stimulus index; `currentIndex`, `indexOffset`,
    the stimulus name/data and the cached session length are left
    unchanged. -/
theorem C7_invalid_index_throws (vd : ViewData) (idx : ℤ) (s : GazeState)
    (h : ¬ (0 ≤ idx ∧ idx < (vd.stims.length : ℤ))) :
    set_stim_index vd idx s =
      ({ s with stim_index := idx }, some JsError.typeError) := by
  unfold set_stim_index
  rw [if_neg h]

/-- Witness for C7 at a concrete out-of-range call. -/
theorem C7_witness :
    set_stim_index vdEx 5 { init with stim_index := 0 } =
      ({ { init with stim_index := 0 } with stim_index := 5 },
       some JsError.typeError) :=
  C7_invalid_index_throws vdEx 5 { init with stim_index := 0 } (by decide)

/-- C8: for every valid stimulus index, selecting it succeeds and caches a
    session length equal to the maximum point-array length over all viewing
    arrays of all viewers of that stimulus (0 when there is no data), which
    is also what a `gaze_len()` recomputation on the new state returns. -/
theorem C8_session_length (vd : ViewData) (idx : ℤ) (s : GazeState)
    (h0 : 0 ≤ idx) (h1 : idx < (vd.stims.length : ℤ)) :
    (set_stim_index vd idx s).2 = none ∧
    (set_stim_index vd idx s).1.gaze_len =
      spec_session_length
        (jsLookup vd.viewdata (vd.stims.getD idx.toNat noName)) ∧
    gaze_len (set_stim_index vd idx s).1.stim_data =
      (set_stim_index vd idx s).1.gaze_len := by
  unfold set_stim_index
  rw [if_pos ⟨h0, h1⟩]
  exact ⟨rfl, gaze_len_eq_spec _, rfl⟩

/-- Witness for C8 on the concrete dataset. -/
theorem C8_witness :
    (set_stim_index vdEx 0 init).2 = none ∧
    (set_stim_index vdEx 0 init).1.gaze_len =
      spec_session_length
        (jsLookup vdEx.viewdata (vdEx.stims.getD (0 : ℤ).toNat noName)) ∧
    gaze_len (set_stim_index vdEx 0 init).1.stim_data =
      (set_stim_index vdEx 0 init).1.gaze_len :=
  C8_session_length vdEx 0 init (by decide) (by decide)

/-- C9 counterexample: `overdraw_all_frames` does modify `currentIndex`: on
    a 3-sample session starting at index 0 it leaves `my.point_index` at
    2. -/
theorem C9_counterexample :
    ({ init with gaze_len := 3 } : GazeState).point_index = 0 ∧
    (overdraw_all_frames { init with gaze_len := 3 }).1.point_index = 2 ∧
    (2 : ℤ) ≠ 0 := by
  refine ⟨rfl, ?_, by decide⟩
  rfl

/-- C9 (amended): `overdraw_all_frames` draws every sample index from 0 to
    `sessionLength - 1` in order — exactly `sessionLength` per-index draw
    calls — and never touches `indexOffset`, but it stores each index into
    `currentIndex` as it draws, leaving it at `sessionLength - 1` (it only
    leaves `currentIndex` alone when the session is empty). -/
theorem C9_overdraw_all_frames (s : GazeState) :
    (overdraw_all_frames s).2 =
      (List.range s.gaze_len).map (fun i : ℕ => (i : ℤ)) ∧
    (overdraw_all_frames s).2.length = s.gaze_len ∧
    (overdraw_all_frames s).1.point_index_offset = s.point_index_offset ∧
    (s.gaze_len = 0 → (overdraw_all_frames s).1 = s) ∧
    (∀ n : ℕ, s.gaze_len = n + 1 →
      (overdraw_all_frames s).1.point_index = (n : ℤ)) := by
  unfold overdraw_all_frames
  refine ⟨overdraw_loop_drawn _ _, ?_, overdraw_loop_offset _ _, ?_, ?_⟩
  · rw [overdraw_loop_drawn]
    simp
  · intro h0
    rw [h0]
    rfl
  · intro n hn
    rw [hn, List.range_succ]
    exact overdraw_loop_append_last _ n s

/-- Witness for C9 on a 3-sample session. -/
theorem C9_witness :
    (overdraw_all_frames { init with gaze_len := 3 }).2.length =
      ({ init with gaze_len := 3 } : GazeState).gaze_len ∧
    (overdraw_all_frames { init with gaze_len := 3 }).1.point_index =
      ((2 : ℕ) : ℤ) :=
  ⟨(C9_overdraw_all_frames { init with gaze_len := 3 }).2.1,
   (C9_overdraw_all_frames { init with gaze_len := 3 }).2.2.2.2 2 rfl⟩

/-- C10: per drawn frame, one disc is produced for each (viewer, viewing
    array) pair whose array has a present point at the current sample index
    (so a viewer with several viewings contributes several discs), absent
    points and out-of-range indices produce nothing and nothing throws (for
    a dataset whose viewers all resolve to a styled group), and the session
    length is the maximum length over all viewing arrays of all viewers. -/
theorem C10_viewings_drawing (vd : ViewData) (gs : List (String × StyleData))
    (s : GazeState) (sd : StimData)
    (hsd : s.stim_data = some sd) (hres : Resolvable vd gs sd) :
    (∃ ds : List Disc,
        draw_current_points vd gs s = Except.ok ds ∧
        ds.length = (List.flatMap sd (fun pr => pr.2)).countP
          (fun arr => (jsGet arr s.point_index).isSome)) ∧
    ((gaze_len (some sd) : ℤ) ≤ s.point_index →
        draw_current_points vd gs s = Except.ok []) ∧
    gaze_len (some sd) = spec_session_length (some sd) := by
  have hdc : draw_current_points vd gs s =
      draw_viewers vd gs s.point_index sd := by
    unfold draw_current_points
    rw [hsd]
  obtain ⟨ds, hds, hlen⟩ := draw_viewers_ok vd gs s.point_index sd hres
  refine ⟨⟨ds, by rw [hdc]; exact hds, hlen⟩, ?_, gaze_len_eq_spec _⟩
  intro hge
  have hnone : ∀ arr ∈ List.flatMap sd (fun pr => pr.2),
      jsGet arr s.point_index = none := by
    intro arr ha
    apply jsGet_none_of_length_le
    have hb := length_le_gaze_len sd arr ha
    omega
  have hcnt : (List.flatMap sd (fun pr => pr.2)).countP
      (fun arr => (jsGet arr s.point_index).isSome) = 0 := by
    rw [List.countP_eq_zero]
    intro a ha
    simp [hnone a ha]
  have hnil : ds = [] := List.length_eq_zero.mp (by rw [hlen, hcnt])
  rw [hdc, hds, hnil]

/-- Witness for C10 on the concrete dataset at index 0 (one disc: the first
    array has a point, the second's index-0 entry is absent, the third is
    empty). -/
theorem C10_witness :
    (∃ ds : List Disc,
        draw_current_points vdEx gsEx { init with stim_data := some sdEx } =
          Except.ok ds ∧
        ds.length = (List.flatMap sdEx (fun pr => pr.2)).countP
          (fun arr => (jsGet arr
            ({ init with stim_data := some sdEx } : GazeState).point_index).isSome)) ∧
    ((gaze_len (some sdEx) : ℤ) ≤
        ({ init with stim_data := some sdEx } : GazeState).point_index →
      draw_current_points vdEx gsEx { init with stim_data := some sdEx } =
        Except.ok []) ∧
    gaze_len (some sdEx) = spec_session_length (some sdEx) :=
  C10_viewings_drawing vdEx gsEx { init with stim_data := some sdEx } sdEx
    rfl (by
      intro pr hpr
      rw [List.mem_singleton.mp hpr]
      exact ⟨{ group := groupA }, by decide, by decide⟩)

end ClaimsB

end GazeHound
